import Mathlib

/-!
# Verification of the GradeEX2 grade-sheet extraction core

A shallow embedding, in Lean 4, of the algorithmic core of the GradeEX2
repository (Mumbai-University grade-sheet extraction):

* `src/pdf_processor.py` — geometric boundary detection
  (`_deduplicate_lines`, the interpretation step of
  `detect_student_boundaries`, and the decision logic of
  `crop_single_student`); page-space y-coordinates are modelled as exact
  rationals (`ℚ`).
* `src/extract_grades.py` — text segmentation and record decoding
  (`find_student_blocks`, `parse_student_record`,
  `validate_student_record`, and the exam-type classification inside
  `extract_index_data`); Python strings are modelled as Lean `String`
  and the handful of regular expressions the code uses are translated
  to explicit character-level scanners with the same matching semantics.
* `src/extract_simple.py` — the simplified segmenter
  (`SimpleStudentExtractor.find_student_blocks`).

Theorems at the end of the file settle the behavioural properties stated
in the repository's specification.
-/

set_option maxRecDepth 16000

namespace GradeEX2

/-! ## Character and string utilities

These model the Python primitives used by the extractor: `str.strip`,
`str.split()` (whitespace tokenisation), `str.isdigit` (ASCII digits —
the grade sheets are ASCII), substring containment (`in`), and
`str.startswith`. -/

/-- ASCII decimal digit, the `\d`=`[0-9]` class of the source regexes and
the (ASCII restriction of) Python `str.isdigit`. -/
def isDigitChar (c : Char) : Bool :=
  '0' ≤ c && c ≤ '9'

/-- ASCII uppercase letter, the `[A-Z]` class of the source regexes. -/
def isUpperChar (c : Char) : Bool :=
  'A' ≤ c && c ≤ 'Z'

/-- Whitespace, the `\s` class of the source regexes and the separator
set of Python `str.split()` / `str.strip()`. -/
def isSpaceChar (c : Char) : Bool :=
  c = ' ' || c = '\t' || c = '\n' || c = '\r'

/-- Python `str.strip()` on a character list. -/
def stripChars (cs : List Char) : List Char :=
  ((cs.dropWhile isSpaceChar).reverse.dropWhile isSpaceChar).reverse

/-- Python `str.strip()`. -/
def pyStrip (s : String) : String :=
  ⟨stripChars s.data⟩

/-- Whitespace tokenisation, structurally recursive on a fuel bound:
every step consumes at least one character, so `fuel = cs.length`
(supplied by `tokenizeChars`) never runs out before the input does. -/
def tokenizeCharsFuel : Nat → List Char → List String
  | 0, _ => []
  | _, [] => []
  | fuel + 1, c :: rest =>
    if isSpaceChar c then
      tokenizeCharsFuel fuel rest
    else
      ⟨c :: rest.takeWhile (fun d => !isSpaceChar d)⟩ ::
        tokenizeCharsFuel fuel (rest.dropWhile (fun d => !isSpaceChar d))

/-- Whitespace tokenisation of a character list: maximal runs of
non-whitespace characters, in order. -/
def tokenizeChars (cs : List Char) : List String :=
  tokenizeCharsFuel cs.length cs

/-- Python `str.split()` (no separator argument): split on whitespace
runs, dropping empty fields. -/
def pySplit (s : String) : List String :=
  tokenizeChars s.data

/-- Python `needle in hay` for strings: `needle` occurs as a contiguous
substring of `hay`. -/
def containsSub (needle hay : String) : Bool :=
  decide (needle.data <:+: hay.data)

/-- Python `str.startswith`. -/
def pyStartsWith (s pre : String) : Bool :=
  pre.data.isPrefixOf s.data

/-- `str.isdigit` restricted to ASCII: non-empty and all characters are
decimal digits (the only form that appears in these grade sheets). -/
def pyIsDigit (s : String) : Bool :=
  !s.data.isEmpty && s.data.all isDigitChar

/-- Numeric value of a non-empty digit string (`int(...)` on the result
of a `\d+` capture). -/
def digitsToNat (cs : List Char) : Nat :=
  cs.foldl (fun acc c => 10 * acc + (c.toNat - '0'.toNat)) 0

/-- `int(s)` for an all-digits string. -/
def pyToNat (s : String) : Nat :=
  digitsToNat s.data

/-- Helper for `splitLines`: `cur` is the current field in reverse. -/
def splitLinesAux (cur : List Char) : List Char → List String
  | [] => [⟨cur.reverse⟩]
  | c :: rest =>
    if c = '\n' then ⟨cur.reverse⟩ :: splitLinesAux [] rest
    else splitLinesAux (c :: cur) rest

/-- Python `s.split('\n')`: split at every newline, keeping empty
fields (`"".split('\n') == ['']`). -/
def splitLines (s : String) : List String :=
  splitLinesAux [] s.data

/-! ## Geometric boundary detection (`src/pdf_processor.py`)

Page-space y-coordinates are modelled as exact rationals.  The
file-system and PyMuPDF parts (`fitz.open`, `page.get_drawings`,
`set_cropbox`, `save`) are external I/O; the embedded functions cover
the algorithmic content: clustering of detected line coordinates
(`_deduplicate_lines`), interpretation of the clustered list as student
bands (`detect_student_boundaries`, lines 276–316), and the
crop-decision logic of `crop_single_student` (lines 360–412), which
consumes the detected bands. -/

/-- Average of a group of y-coordinates: `sum(current_group) /
len(current_group)` (`_deduplicate_lines`, lines 230 and 238). -/
def groupAvg (g : List ℚ) : ℚ :=
  g.sum / g.length

/-- Loop body of `PdfProcessor._deduplicate_lines` (lines 222–241):
`prev` is `lines[i-1]`, `group` the current group (most recent element
last), `rest` the remaining input.  A new element within `threshold` of
the previous element joins the current group; otherwise the group is
closed and emitted as its average. -/
def dedupAux (threshold : ℚ) (prev : ℚ) (group : List ℚ) : List ℚ → List ℚ
  | [] => [groupAvg group]
  | x :: rest =>
    if x - prev ≤ threshold then
      dedupAux threshold x (group ++ [x]) rest
    else
      groupAvg group :: dedupAux threshold x [x] rest

/-- `PdfProcessor._deduplicate_lines(lines, threshold)` (lines
200–243): group consecutive y-coordinates whose successive differences
are within `threshold` and replace each group by its average. -/
def deduplicate_lines (lines : List ℚ) (threshold : ℚ) : List ℚ :=
  match lines with
  | [] => []
  | x :: rest => dedupAux threshold x [x] rest

/-- One student band: `{'y_top': …, 'y_bottom': …}`. -/
structure Band where
  y_top : ℚ
  y_bottom : ℚ
deriving DecidableEq, Repr

/-- Result dictionary of `detect_student_boundaries`:
`{'num_students': …, 'students': …, 'detected_lines': …}`. -/
structure Boundary where
  num_students : Nat
  students : List Band
  detected_lines : List ℚ
deriving DecidableEq, Repr

/-- Interpretation step of `PdfProcessor.detect_student_boundaries`
(lines 276–316), applied to the deduplicated line list returned by
`detect_horizontal_lines`: three or more lines give two bands from the
first three lines, exactly two lines give one band, fewer than two give
a zero-band failure result. -/
def interpretBoundaries (lines : List ℚ) : Boundary :=
  if h3 : 3 ≤ lines.length then
    { num_students := 2
      students := [⟨lines[0], lines[1]⟩, ⟨lines[1], lines[2]⟩]
      detected_lines := lines }
  else if h2 : 2 ≤ lines.length then
    { num_students := 1
      students := [⟨lines[0], lines[1]⟩]
      detected_lines := lines }
  else
    { num_students := 0, students := [], detected_lines := lines }

/-- A crop rectangle `fitz.Rect(x_left, y_top, x_right, y_bottom)`. -/
structure CropRegion where
  x_left : ℚ
  y_top : ℚ
  x_right : ℚ
  y_bottom : ℚ
deriving DecidableEq, Repr

/-- Fixed-coordinate bands `STUDENT_BLOCK_COORDS['student_heights']`
(lines 79–82), used only by the explicitly-legacy
`crop_single_student_fixed` path. -/
def STUDENT_BLOCK_COORDS_student_heights : List (ℚ × ℚ) :=
  [(91, 294), (294, 497)]

/-- Decision logic of `PdfProcessor.crop_single_student` (lines
360–412) after `detect_student_boundaries` has produced its result for
the requested page: a zero-band detection aborts with failure (line
364), an out-of-range student index aborts with failure (line 371),
and otherwise the crop rectangle is built from the detected band with
`x_left = 0` and `x_right = page_width` (lines 378–390).  `none`
models `return False` with no output file written. -/
def crop_single_student (detectedLines : List ℚ) (pageWidth : ℚ)
    (student_index : Nat) : Option CropRegion :=
  let boundaries := interpretBoundaries detectedLines
  if boundaries.num_students = 0 then
    none
  else if boundaries.students.length ≤ student_index then
    none
  else
    let sb := boundaries.students.getD student_index ⟨0, 0⟩
    some ⟨0, sb.y_top, pageWidth, sb.y_bottom⟩

/-! ## Regex scanners for the record decoder (`src/extract_grades.py`)

Each regular expression used by `parse_student_record` is translated to
an explicit character-level scanner with the same matching semantics
(leftmost match, greedy repetition, non-overlapping `findall`). -/

/-- `re.match(r'^\d{9}\s+[A-Z]', line.strip())` (lines 223 and 321):
the stripped line starts with nine digits, at least one whitespace
character, and an uppercase letter. -/
def isSeatAnchor (line : String) : Bool :=
  let cs := stripChars line.data
  let digits := cs.take 9
  let rest := cs.drop 9
  digits.length = 9 && digits.all isDigitChar &&
    (let rest' := rest.dropWhile isSpaceChar
     decide (rest' ≠ rest) &&
       (match rest' with
        | c :: _ => isUpperChar c
        | [] => false))

/-- `re.match(r'^\(MU\d+', lines[i-1].strip())` (line 225): the
stripped previous line starts with `(MU` followed by at least one
digit. -/
def isErnContinuation (line : String) : Bool :=
  match stripChars line.data with
  | '(' :: 'M' :: 'U' :: c :: _ => isDigitChar c
  | _ => false

/-- `re.match(r'^\d{9}$', tok)` (line 329): exactly nine digits. -/
def isNineDigits (tok : String) : Bool :=
  tok.data.length = 9 && tok.data.all isDigitChar

/-- `re.findall(r'(\d{7})\s*:', block_text)` (line 304): every
non-overlapping leftmost occurrence of seven digits followed by
optional whitespace and a colon; the scan resumes after the colon. -/
def scanSubjectCodesFuel : Nat → List Char → List String
  | 0, _ => []
  | _, [] => []
  | fuel + 1, c :: rest =>
    if ((c :: rest).take 7).length = 7 && ((c :: rest).take 7).all isDigitChar then
      match ((c :: rest).drop 7).dropWhile isSpaceChar with
      | ':' :: more => ⟨(c :: rest).take 7⟩ :: scanSubjectCodesFuel fuel more
      | _ => scanSubjectCodesFuel fuel rest
    else
      scanSubjectCodesFuel fuel rest

/-- See `scanSubjectCodesFuel`; every step consumes at least one
character, so `fuel = cs.length` never runs out before the input
does. -/
def scanSubjectCodes (cs : List Char) : List String :=
  scanSubjectCodesFuel cs.length cs

/-- Order-preserving de-duplication with a `seen` set (lines 305–310
and 569–574). -/
def dedupPreservingOrder (codes : List String) : List String :=
  codes.foldl (fun acc c => if c ∈ acc then acc else acc ++ [c]) []

/-- Consume `\s+`: at least one whitespace character. -/
def eatWs1 (cs : List Char) : Option (List Char) :=
  match cs with
  | c :: rest => if isSpaceChar c then some (rest.dropWhile isSpaceChar) else none
  | [] => none

/-- Consume a literal character. -/
def eatLit (c : Char) (cs : List Char) : Option (List Char) :=
  match cs with
  | d :: rest => if d = c then some rest else none
  | [] => none

/-- Consume `\d+`: at least one digit. -/
def eatDigits1 (cs : List Char) : Option (List Char) :=
  match cs with
  | c :: rest => if isDigitChar c then some (rest.dropWhile isDigitChar) else none
  | [] => none

/-- Consume `\d+\.\d+`. -/
def eatDecimal (cs : List Char) : Option (List Char) := do
  let cs ← eatDigits1 cs
  let cs ← eatLit '.' cs
  eatDigits1 cs

/-- Consume `\s+0\s+F\s+\d+\.\d+`, the tail of the fail alternative of
the external-marks pattern `(\d+)\s*(?:P|0\s+F\s+\d+\.\d+)` (line 376)
when the whitespace between the captured mark and the literal `0` is
non-empty. -/
def eatFailZeroTail (cs : List Char) : Option (List Char) := do
  let cs ← eatWs1 cs
  let cs ← eatLit '0' cs
  let cs ← eatWs1 cs
  let cs ← eatLit 'F' cs
  let cs ← eatWs1 cs
  eatDecimal cs

/-- Consume `\s+F\s+\d+\.\d+`, the tail of the fail alternative when
the regex engine backtracks one digit: the captured run ends in `0` and
that final `0` serves as the literal `0` of the pattern. -/
def eatFailFTail (cs : List Char) : Option (List Char) := do
  let cs ← eatWs1 cs
  let cs ← eatLit 'F' cs
  let cs ← eatWs1 cs
  eatDecimal cs

theorem eatWs1_length {cs tl : List Char} (h : eatWs1 cs = some tl) :
    tl.length < cs.length := by
  match cs with
  | [] => simp [eatWs1] at h
  | c :: rest =>
    simp only [eatWs1] at h
    split at h
    · cases h
      have : (rest.dropWhile isSpaceChar).length ≤ rest.length :=
        (List.dropWhile_suffix _).sublist.length_le
      simp only [List.length_cons]
      omega
    · cases h

theorem eatLit_length {c : Char} {cs tl : List Char} (h : eatLit c cs = some tl) :
    tl.length < cs.length := by
  match cs with
  | [] => simp [eatLit] at h
  | d :: rest =>
    simp only [eatLit] at h
    split at h
    · cases h; simp
    · cases h

theorem eatDigits1_length {cs tl : List Char} (h : eatDigits1 cs = some tl) :
    tl.length < cs.length := by
  match cs with
  | [] => simp [eatDigits1] at h
  | c :: rest =>
    simp only [eatDigits1] at h
    split at h
    · cases h
      have : (rest.dropWhile isDigitChar).length ≤ rest.length :=
        (List.dropWhile_suffix _).sublist.length_le
      simp only [List.length_cons]
      omega
    · cases h

theorem eatDecimal_length {cs tl : List Char} (h : eatDecimal cs = some tl) :
    tl.length < cs.length := by
  simp only [eatDecimal, Option.bind_eq_bind, Option.bind_eq_some] at h
  obtain ⟨a, ha, b, hb, hc⟩ := h
  exact lt_trans (lt_trans (eatDigits1_length hc) (eatLit_length hb)) (eatDigits1_length ha)

theorem eatFailZeroTail_length {cs tl : List Char} (h : eatFailZeroTail cs = some tl) :
    tl.length < cs.length := by
  simp only [eatFailZeroTail, Option.bind_eq_bind, Option.bind_eq_some] at h
  obtain ⟨a, ha, b, hb, c, hc, d, hd, e, he, hf⟩ := h
  have := eatWs1_length ha
  have := eatLit_length hb
  have := eatWs1_length hc
  have := eatLit_length hd
  have := eatWs1_length he
  have := eatDecimal_length hf
  omega

theorem eatFailFTail_length {cs tl : List Char} (h : eatFailFTail cs = some tl) :
    tl.length < cs.length := by
  simp only [eatFailFTail, Option.bind_eq_bind, Option.bind_eq_some] at h
  obtain ⟨a, ha, b, hb, c, hc, hd⟩ := h
  have := eatWs1_length ha
  have := eatLit_length hb
  have := eatWs1_length hc
  have := eatDecimal_length hd
  omega

/-- `re.sub(r'^E1\s+', '', line)` (line 371): remove a leading `E1`
followed by at least one whitespace character, when present. -/
def stripE1Marker (cs : List Char) : List Char :=
  match cs with
  | 'E' :: '1' :: c :: rest =>
    if isSpaceChar c then (c :: rest).dropWhile isSpaceChar else cs
  | _ => cs

/-- `re.sub(r'\s*MARKS.*$', '', content)` (line 372): cut everything
from the first occurrence of `MARKS` to the end of the string, together
with the whitespace run immediately preceding that occurrence (the
leftmost match of the pattern). `acc` holds the already-kept prefix in
reverse. -/
def cutBeforeMarksAux (acc : List Char) (cs : List Char) : List Char :=
  match cs with
  | [] => acc.reverse
  | c :: rest =>
    if ['M', 'A', 'R', 'K', 'S'].isPrefixOf (c :: rest) then
      (acc.dropWhile isSpaceChar).reverse
    else
      cutBeforeMarksAux (c :: acc) rest

/-- See `cutBeforeMarksAux`. -/
def cutBeforeMarks (cs : List Char) : List Char :=
  cutBeforeMarksAux [] cs

/-- `re.finditer(r'(\d+)\s*(?:P|0\s+F\s+\d+\.\d+)', content)` (line
376): non-overlapping leftmost matches; the captured digit group of
each match is collected.  At each maximal digit run the engine first
tries the pass alternative (optional whitespace then `P`), then the
fail alternative with the literal `0` standing after the whitespace,
and finally — by backtracking the greedy `\d+` — the fail alternative
with the run's own final `0` serving as the literal `0`. -/
def e1ScanFuel : Nat → List Char → List Nat
  | 0, _ => []
  | _, [] => []
  | fuel + 1, c :: rest =>
    if isDigitChar c then
      match (rest.dropWhile isDigitChar).dropWhile isSpaceChar with
      | 'P' :: tl => digitsToNat (c :: rest.takeWhile isDigitChar) :: e1ScanFuel fuel tl
      | _ =>
        match eatFailZeroTail (rest.dropWhile isDigitChar) with
        | some tl => digitsToNat (c :: rest.takeWhile isDigitChar) :: e1ScanFuel fuel tl
        | none =>
          if 2 ≤ (c :: rest.takeWhile isDigitChar).length &&
              (c :: rest.takeWhile isDigitChar).getLastD ' ' = '0' then
            match eatFailFTail (rest.dropWhile isDigitChar) with
            | some tl =>
              digitsToNat (c :: rest.takeWhile isDigitChar).dropLast :: e1ScanFuel fuel tl
            | none => e1ScanFuel fuel (rest.dropWhile isDigitChar)
          else
            e1ScanFuel fuel (rest.dropWhile isDigitChar)
    else
      e1ScanFuel fuel rest

/-- See `e1ScanFuel`; every step consumes at least one character
(continuations are suffixes of the input past the current run or
character), so `fuel = cs.length` never runs out before the input
does. -/
def e1Scan (cs : List Char) : List Nat :=
  e1ScanFuel cs.length cs

/-- `re.findall(r'(\d+)\s*P', marks_portion)` (line 390):
non-overlapping leftmost occurrences of a digit run followed by
optional whitespace and `P`; the digit captures are collected. -/
def i1ScanFuel : Nat → List Char → List Nat
  | 0, _ => []
  | _, [] => []
  | fuel + 1, c :: rest =>
    if isDigitChar c then
      match (rest.dropWhile isDigitChar).dropWhile isSpaceChar with
      | 'P' :: tl => digitsToNat (c :: rest.takeWhile isDigitChar) :: i1ScanFuel fuel tl
      | _ => i1ScanFuel fuel (rest.dropWhile isDigitChar)
    else
      i1ScanFuel fuel rest

/-- See `i1ScanFuel`; every step consumes at least one character, so
`fuel = cs.length` never runs out before the input does. -/
def i1Scan (cs : List Char) : List Nat :=
  i1ScanFuel cs.length cs

/-- `re.search(r'\((\d+)\)\s*(?:PASS|FAIL)', line)` (line 399): the
leftmost occurrence of a parenthesised digit run followed by optional
whitespace and a `PASS` or `FAIL` literal; yields the digit capture. -/
def findParenTotal (cs : List Char) : Option Nat :=
  match cs with
  | [] => none
  | '(' :: rest =>
    let run := rest.takeWhile isDigitChar
    let after := rest.dropWhile isDigitChar
    if !run.isEmpty then
      match after with
      | ')' :: tl =>
        let tl' := tl.dropWhile isSpaceChar
        if ['P', 'A', 'S', 'S'].isPrefixOf tl' || ['F', 'A', 'I', 'L'].isPrefixOf tl' then
          some (digitsToNat run)
        else
          findParenTotal rest
      | _ => findParenTotal rest
    else
      findParenTotal rest
  | _ :: rest => findParenTotal rest

/-- Rational value of a decimal literal with integer digits `intDs` and
fractional digits `fracDs` (both in reading order). -/
def decimalValue (intDs fracDs : List Char) : ℚ :=
  (digitsToNat intDs : ℚ) + (digitsToNat fracDs : ℚ) / ((10 : ℚ) ^ fracDs.length)

/-- `re.search(r'(\d+\.\d+)\s*$', line)` followed by
`line[:match.start()].strip()` (lines 415–423): when the line ends with
optional whitespace preceded by a decimal number `\d+\.\d+`, return the
number's value and the stripped remainder; the match takes the maximal
trailing digit run on each side of the dot.  Returns `none` when the
line does not end that way. -/
def stripTrailingDecimal (cs : List Char) : Option (ℚ × List Char) :=
  let r := cs.reverse.dropWhile isSpaceChar
  let frac := r.takeWhile isDigitChar
  let r1 := r.dropWhile isDigitChar
  if frac.isEmpty then none
  else
    match r1 with
    | '.' :: r2 =>
      let intPart := r2.takeWhile isDigitChar
      if intPart.isEmpty then none
      else
        some (decimalValue intPart.reverse frac.reverse,
          stripChars (r2.dropWhile isDigitChar).reverse)
    | _ => none

/-- `re.search(r'(\d+)\s*$', line)` followed by
`line[:match.start()].strip()` (lines 426–429): when the line ends with
optional whitespace preceded by a digit run, return the run's value and
the stripped remainder. -/
def stripTrailingInt (cs : List Char) : Option (Nat × List Char) :=
  let r := cs.reverse.dropWhile isSpaceChar
  let run := r.takeWhile isDigitChar
  if run.isEmpty then none
  else
    some (digitsToNat run.reverse, stripChars (r.dropWhile isDigitChar).reverse)

/-- `float(s)` (lines 453 and 457) on the decimal token forms that can
occur in these grade sheets: an optional sign, then `d+`, `d+.`,
`d+.d+` or `.d+`.  Exotic accepted forms of the Python float parser
(exponents, `inf`, `nan`, underscores) do not occur in this data and
are modelled as failures. -/
def pyParseFloat (s : String) : Option ℚ :=
  let withSign : List Char → Option ℚ := fun cs =>
    let intDs := cs.takeWhile isDigitChar
    match cs.dropWhile isDigitChar with
    | [] => if intDs.isEmpty then none else some (digitsToNat intDs)
    | '.' :: frac =>
      if frac.all isDigitChar && !(intDs.isEmpty && frac.isEmpty) then
        some (decimalValue intDs frac)
      else
        none
    | _ => none
  match s.data with
  | '-' :: rest => (withSign rest).map (fun q => -q)
  | '+' :: rest => withSign rest
  | cs => withSign cs

/-! ## The student record and its decoder (`src/extract_grades.py`) -/

/-- The student dictionary built by
`MumbaiUniversityGradeExtractor.parse_student_record` (lines 265–286).
Marks are modelled as `Nat`, decimal quantities as exact rationals.
`grade_credits` entries are `Option ℚ` because the source stores `None`
on a parse failure (line 459).  The `college`/`college_code` fields are
not embedded: no specification claim refers to them. -/
structure Student where
  seat_no : Option String := none
  name : Option String := none
  status : Option String := none
  gender : Option String := none
  ern : Option String := none
  subject_codes : List String := []
  external_marks : List Nat := []
  internal_marks : List Nat := []
  total_marks_list : List Nat := []
  grade_points : List Nat := []
  grades : List String := []
  credits : List ℚ := []
  grade_credits : List (Option ℚ) := []
  total_marks : Option Nat := none
  result : Option String := none
  sgpa : Option ℚ := none
  total_credits : Option Nat := none
  page_number : Nat := 0
deriving DecidableEq, Repr

/-- `status_keywords = ['Regular', 'ATKT', 'Ex-Student']` (line 333). -/
def status_keywords : List String :=
  ["Regular", "ATKT", "Ex-Student"]

/-- `gender_keywords = ['MALE', 'FEMALE', 'OTHER']` (line 346). -/
def gender_keywords : List String :=
  ["MALE", "FEMALE", "OTHER"]

/-- Seat-number-line decoding, lines 326–349 of
`parse_student_record`: tokenize the seat line; when the first token is
exactly nine digits it becomes the seat number; the first token drawn
from `status_keywords` becomes the status; the tokens strictly between
the seat number and the status keyword (when the keyword sits past
index 1) joined with single spaces become the name; the token directly
after the status keyword becomes the gender when it is one of
`gender_keywords`.  The Python truthiness test `if status_idx` is false
both for `None` and for index `0`. -/
def decodeSeatLine (seat_line : String) (st : Student) : Student :=
  let tokens := pySplit seat_line
  match tokens with
  | [] => st
  | t0 :: _ =>
    if isNineDigits t0 then
      let st := { st with seat_no := some t0 }
      let status_idx := tokens.findIdx? (fun t => t ∈ status_keywords)
      let st :=
        match status_idx with
        | some i => { st with status := some (tokens.getD i "") }
        | none => st
      let st :=
        match status_idx with
        | some i =>
          if i ≠ 0 ∧ 1 < i then
            { st with name := some (" ".intercalate ((tokens.take i).drop 1)) }
          else st
        | none => st
      match status_idx with
      | some i =>
        if i ≠ 0 ∧ i + 1 < tokens.length then
          if tokens.getD (i + 1) "" ∈ gender_keywords then
            { st with gender := some (tokens.getD (i + 1) "") }
          else st
        else st
      | none => st
    else
      st

/-- `re.search(r'\(MU(\d+)', header)` (line 353): leftmost occurrence
of `(MU` followed by at least one digit; yields `'MU' + digits`. -/
def findErn (cs : List Char) : Option String :=
  match cs with
  | '(' :: 'M' :: 'U' :: rest =>
    let run := rest.takeWhile isDigitChar
    if run.isEmpty then findErn ('M' :: 'U' :: rest) else some ⟨'M' :: 'U' :: run⟩
  | _ :: rest => findErn rest
  | [] => none

/-- State of the aggregate-row quintuple loop: the five per-subject
lists of the student dictionary that lines 449–459 append to. -/
structure TotLists where
  total_marks_list : List Nat
  grade_points : List Nat
  grades : List String
  credits : List ℚ
  grade_credits : List (Option ℚ)
deriving DecidableEq, Repr

/-- The `while` loop of the aggregate row (lines 435–468): walk the
whitespace-split `parts` from index 1 and, at each position, accept a
per-subject quintuple (total, grade point, letter grade, credit,
grade·credit) only if the total is an integer in `[0, 50]`, four more
tokens exist, the grade-point token is all digits and the grade token —
with `+`/`-` removed — is not; credit falls back to `2.0` and
grade·credit to `None` when `float()` fails.  On acceptance advance
five positions, otherwise one; stop when the subject-code target is
reached or tokens run out. -/
def totLoopFuel (parts : List String) (numCodes : Nat) :
    Nat → Nat → TotLists → TotLists
  | 0, _, st => st
  | fuel + 1, i, st =>
    if i < parts.length ∧ st.total_marks_list.length < numCodes then
      if pyIsDigit (parts.getD i "") then
        let total := pyToNat (parts.getD i "")
        if total ≤ 50 ∧ i + 4 < parts.length then
          let grade_point_str := parts.getD (i + 1) ""
          let grade := parts.getD (i + 2) ""
          let credit_str := parts.getD (i + 3) ""
          let gc_str := parts.getD (i + 4) ""
          if pyIsDigit grade_point_str &&
              !(pyIsDigit ⟨grade.data.filter (fun c => c ≠ '+' && c ≠ '-')⟩) then
            totLoopFuel parts numCodes fuel (i + 5)
              { total_marks_list := st.total_marks_list ++ [total]
                grade_points := st.grade_points ++ [pyToNat grade_point_str]
                grades := st.grades ++ [grade]
                credits := st.credits ++ [(pyParseFloat credit_str).getD 2]
                grade_credits := st.grade_credits ++ [pyParseFloat gc_str] }
          else
            totLoopFuel parts numCodes fuel (i + 1) st
        else
          totLoopFuel parts numCodes fuel (i + 1) st
      else
        totLoopFuel parts numCodes fuel (i + 1) st
    else
      st

/-- See `totLoopFuel`; the loop runs only while `i < parts.length` and
every iteration increases `i` by at least one, so a fuel of
`parts.length + 1` never runs out before the loop condition fails. -/
def totLoop (parts : List String) (numCodes : Nat) (i : Nat) (st : TotLists) : TotLists :=
  totLoopFuel parts numCodes (parts.length + 1) i st

/-- Step 1 of the aggregate row (lines 414–418): extract the SGPA as
the rightmost trailing decimal and cut it off the line; when the line
does not end in a decimal the student and the line are unchanged. -/
def stripSgpa (st : Student) (cs : List Char) : Student × List Char :=
  match stripTrailingDecimal cs with
  | some (v, cs') => ({ st with sgpa := some v }, cs')
  | none => (st, cs)

/-- Step 2 of the aggregate row (lines 420–423): cut the next trailing
decimal — the sum of grade·credit products — discarding its value. -/
def stripIntermediateSum (cs : List Char) : List Char :=
  match stripTrailingDecimal cs with
  | some (_, cs') => cs'
  | none => cs

/-- Step 3 of the aggregate row (lines 425–429): extract the total
credits as the rightmost trailing integer and cut it off the line. -/
def stripTotalCredits (st : Student) (cs : List Char) : Student × List Char :=
  match stripTrailingInt cs with
  | some (n, cs') => ({ st with total_credits := some n }, cs')
  | none => (st, cs)

/-- Processing of one marks row (the `for line in lines` body, lines
366–468): an `E1` line overwrites the external marks, an `I1` line
overwrites the internal marks and sets the aggregate total and the
PASS/FAIL outcome, a `TOT` line peels the trailing weighted average,
the discarded intermediate sum and the trailing total credit off the
right end and then appends per-subject quintuples. -/
def marksRowStep (numCodes : Nat) (st : Student) (line : String) : Student :=
  if pyStartsWith line "E1" then
    let content := cutBeforeMarks (stripE1Marker line.data)
    let marks := e1Scan content
    let marks := if 0 < numCodes ∧ numCodes < marks.length then marks.take numCodes else marks
    { st with external_marks := marks }
  else if pyStartsWith line "I1" then
    let marks_portion := line.data.takeWhile (fun c => c ≠ '(')
    let marks := i1Scan marks_portion
    let marks := if 0 < numCodes ∧ numCodes < marks.length then marks.take numCodes else marks
    let st := { st with internal_marks := marks }
    let st :=
      match findParenTotal line.data with
      | some n => { st with total_marks := some n }
      | none => st
    if containsSub "PASS" line then { st with result := some "PASS" }
    else if containsSub "FAIL" line then { st with result := some "FAIL" }
    else st
  else if pyStartsWith line "TOT" then
    let p1 := stripSgpa st line.data
    let cs2 := stripIntermediateSum p1.2
    let p3 := stripTotalCredits p1.1 cs2
    let st := p3.1
    let parts := tokenizeChars p3.2
    let res := totLoop parts numCodes 1
      { total_marks_list := st.total_marks_list
        grade_points := st.grade_points
        grades := st.grades
        credits := st.credits
        grade_credits := st.grade_credits }
    { st with
        total_marks_list := res.total_marks_list
        grade_points := res.grade_points
        grades := res.grades
        credits := res.credits
        grade_credits := res.grade_credits }
  else
    st

/-- `MumbaiUniversityGradeExtractor.parse_student_record(block_text,
page_number, page_subject_codes)` (lines 244–470): strip and drop empty
lines; collect the subject codes of the block (all `7 digits + colon`
occurrences anywhere in the block, de-duplicated in first-seen order,
falling back to the page-level codes); decode the header section
(everything before the first `E1` line) for seat number, name, status,
gender and enrollment reference; then fold the marks-row processing
over every line. -/
def parse_student_record (block_text : String) (page_number : Nat)
    (page_subject_codes : List String) : Student :=
  let lines := (splitLines block_text).map pyStrip |>.filter (fun l => !l.isEmpty)
  let blockCodes := dedupPreservingOrder (scanSubjectCodes block_text.data)
  let subject_codes :=
    if blockCodes.isEmpty ∧ ¬ page_subject_codes.isEmpty then page_subject_codes
    else blockCodes
  let header_lines := lines.takeWhile (fun l => !pyStartsWith l "E1")
  let header := " ".intercalate (pySplit (" ".intercalate header_lines))
  let st : Student := { subject_codes := subject_codes, page_number := page_number }
  let st :=
    match header_lines.find? isSeatAnchor with
    | some seat_line => decodeSeatLine seat_line st
    | none => st
  let st :=
    match findErn header.data with
    | some e => { st with ern := some e }
    | none => st
  lines.foldl (marksRowStep subject_codes.length) st

/-- Python truthiness of an optional string field: `None` and the empty
string are both falsy (`if not student.get(field)`, line 485). -/
def truthyStr (s : Option String) : Bool :=
  match s with
  | none => false
  | some s => !s.isEmpty

/-- `MumbaiUniversityGradeExtractor.validate_student_record(student)`
(lines 472–508): the seat number, name, status and outcome must be
truthy; the external-marks array must be non-empty; and the internal,
total and grade arrays must match its length. -/
def validate_student_record (student : Student) : Bool :=
  truthyStr student.seat_no && truthyStr student.name &&
  truthyStr student.status && truthyStr student.result &&
  (let num_subjects := student.external_marks.length
   !(num_subjects = 0) &&
   (student.internal_marks.length = num_subjects &&
    student.total_marks_list.length = num_subjects &&
    student.grades.length = num_subjects))

/-! ## Record segmentation (`src/extract_grades.py` lines 200–242 and
`src/extract_simple.py` lines 80–115) -/

/-- Start-anchor detection of
`MumbaiUniversityGradeExtractor.find_student_blocks` (lines 220–228):
for each line index `i` in order, a seat-anchor line contributes a
start index — `i - 1` when the preceding line is an enrollment
reference continuation (to include the ERN line), otherwise `i`. -/
def studentStartIndices (lines : List String) : List Nat :=
  (List.range lines.length).filterMap (fun i =>
    if isSeatAnchor (lines.getD i "") then
      if 0 < i ∧ isErnContinuation (lines.getD (i - 1) "") then
        some (i - 1)
      else
        some i
    else
      none)

/-- Start-anchor detection of
`SimpleStudentExtractor.find_student_blocks` (lines 91–100): the
continuation case is tested first and short-circuits with `continue`;
the result is the same index per anchor line. -/
def simpleStudentStartIndices (lines : List String) : List Nat :=
  (List.range lines.length).filterMap (fun i =>
    if 0 < i ∧ isErnContinuation (lines.getD (i - 1) "") then
      if isSeatAnchor (lines.getD i "") then some (i - 1) else none
    else if isSeatAnchor (lines.getD i "") then some i
    else none)

/-- `(start, end)` pairs of the block-extraction loop (lines 232–234):
block `k` spans from `starts[k]` to `starts[k+1]`, the last one to the
number of lines. -/
def blockRanges (starts : List Nat) (numLines : Nat) : List (Nat × Nat) :=
  starts.zip (starts.drop 1 ++ [numLines])

/-- The lines of one block: `lines[start:end]` joined with newlines
(lines 236–238). -/
def blockSlice (lines : List String) (se : Nat × Nat) : String :=
  "\n".intercalate ((lines.drop se.1).take (se.2 - se.1))

/-- `MumbaiUniversityGradeExtractor.find_student_blocks(page_text)`
(lines 200–242): split the page into lines, find the start anchors,
slice the page between consecutive anchors and keep exactly the blocks
whose text contains `E1`, `I1` and `TOT` (line 239). -/
def find_student_blocks (page_text : String) : List String :=
  let lines := splitLines page_text
  let starts := studentStartIndices lines
  (blockRanges starts lines.length).foldl (fun blocks se =>
    let block_text := blockSlice lines se
    if containsSub "E1" block_text && containsSub "I1" block_text &&
        containsSub "TOT" block_text then
      blocks ++ [block_text]
    else
      blocks) []

/-- `SimpleStudentExtractor.find_student_blocks(page_text)`
(`src/extract_simple.py` lines 80–115): identical block slicing, but
the completeness gate of line 112 tests only for `I1` and `TOT` — the
external-marks marker `E1` is not required. -/
def simple_find_student_blocks (page_text : String) : List String :=
  let lines := splitLines page_text
  let starts := simpleStudentStartIndices lines
  (blockRanges starts lines.length).foldl (fun blocks se =>
    let block_text := blockSlice lines se
    if containsSub "I1" block_text && containsSub "TOT" block_text then
      blocks ++ [block_text]
    else
      blocks) []

/-! ## Exam-type classification (`src/extract_grades.py` lines
103–141) -/

/-- Title-line test of `extract_index_data` (line 113): the line
mentions `Bachelor` or `OFFICE REGISTER`. -/
def isTitleLine (line : String) : Bool :=
  containsSub "Bachelor" line || containsSub "OFFICE REGISTER" line

/-- Exam-type classification inside the title-line branch (lines
126–129): `SUPPLEMENTARY` when that literal occurs in the line,
otherwise `REGULAR` when that literal occurs, otherwise the field keeps
its initial `None`. -/
def classifyExamType (line : String) : Option String :=
  if containsSub "SUPPLEMENTARY" line then some "SUPPLEMENTARY"
  else if containsSub "REGULAR" line then some "REGULAR"
  else none

/-- The `parsed_exam_type` produced by `extract_index_data` from the
first page's lines (lines 111–141): the first title line found — the
loop breaks at it — is classified; with no title line the field stays
`None`. -/
def parsedExamTypeOfFirstPage (lines : List String) : Option String :=
  match lines.find? isTitleLine with
  | some line => classifyExamType line
  | none => none

end GradeEX2

namespace GradeEX2

/-! ## Concrete test blocks used by the theorems -/

/-- A complete student block whose subject-code header announces three
subjects while every marks row decodes only two values. -/
def c1Block : String :=
  "123456789 RAHUL SHARMA Regular MALE (MU0098765)\n" ++
  "1234501 : 1234502 : 1234503 :\n" ++
  "E1 38 P 40 P MARKS\n" ++
  "I1 20 P 15 P (113) PASS\n" ++
  "TOT 45 9 A 2.00 18.00 48 8 B 2.00 16.00 4 34.00 8.50"

/-- A complete student block with two subject codes and the aggregate
row of specification example 6. -/
def c2Block : String :=
  "123456789 RAHUL SHARMA Regular MALE (MU0098765)\n" ++
  "1234501 : 1234502 :\n" ++
  "E1 38 P 40 P MARKS\n" ++
  "I1 20 P 15 P (95) PASS\n" ++
  "TOT 45 8 B 2.00 16.00 50 9 A 2.00 18.00 4 34.00 8.50"

/-- The aggregate row of specification example 6 and its successive
right-to-left peeling stages. -/
def c2TotRow : String := "TOT 45 8 B 2.00 16.00 50 9 A 2.00 18.00 4 34.00 8.50"

/-- `c2TotRow` after the weighted average `8.50` is stripped. -/
def c2AfterSgpa : String := "TOT 45 8 B 2.00 16.00 50 9 A 2.00 18.00 4 34.00"

/-- `c2AfterSgpa` after the discarded intermediate sum `34.00` is
stripped. -/
def c2AfterSum : String := "TOT 45 8 B 2.00 16.00 50 9 A 2.00 18.00 4"

/-- `c2AfterSum` after the total credit `4` is stripped. -/
def c2AfterCredit : String := "TOT 45 8 B 2.00 16.00 50 9 A 2.00 18.00"

/-- A seat-number line whose status token is `Repeater`. -/
def c5SeatLine : String := "123456789 RAHUL SHARMA Repeater MALE"

/-- A page holding one anchored candidate block that contains the `I1`
and `TOT` markers but no `E1` marker. -/
def c4Page : String :=
  "123456789 AMIT KUMAR Regular MALE\nI1 20 P (95) PASS\nTOT 45 8 B 2.00 16.00 4 34.00 8.50"

/-- A first-page title line naming neither `SUPPLEMENTARY` nor
`REGULAR`. -/
def c8TitleLine : String :=
  "OFFICE REGISTER FOR THE Bachelor of Arts EXAMINATION HELD IN DECEMBER 2025"

/-! ## C2 -/

/-- C2: on a block whose aggregate row is exactly
`"TOT 45 8 B 2.00 16.00 50 9 A 2.00 18.00 4 34.00 8.50"` and which
yields exactly two subject codes, `parse_student_record` produces
sgpa = 8.50, total_credits = 4, totals `[45, 50]`, grade points
`[8, 9]`, grades `["B", "A"]`, credits `[2, 2]` and grade·credits
`[16, 18]`; the two-pass strategy first strips the trailing decimal
(weighted average), then the next trailing decimal (discarded), then
the trailing integer (total credit), and then scans left-to-right for
per-subject quintuples. -/
theorem C2_aggregate_row_two_pass :
    (parse_student_record c2Block 3 []).subject_codes.length = 2 ∧
    stripTrailingDecimal c2TotRow.data = some (17 / 2, c2AfterSgpa.data) ∧
    stripTrailingDecimal c2AfterSgpa.data = some (34, c2AfterSum.data) ∧
    stripTrailingInt c2AfterSum.data = some (4, c2AfterCredit.data) ∧
    (parse_student_record c2Block 3 []).sgpa = some (17 / 2) ∧
    (parse_student_record c2Block 3 []).total_credits = some 4 ∧
    (parse_student_record c2Block 3 []).total_marks_list = [45, 50] ∧
    (parse_student_record c2Block 3 []).grade_points = [8, 9] ∧
    (parse_student_record c2Block 3 []).grades = ["B", "A"] ∧
    (parse_student_record c2Block 3 []).credits = [2, 2] ∧
    (parse_student_record c2Block 3 []).grade_credits = [some 16, some 18] := by
  with_unfolding_all decide

/-! ## C3 -/

/-- C3: with three or more clustered lines the boundary interpretation
reports two students whose bands are `(line0, line1)` and
`(line1, line2)` — they share `line1`, so together they cover the span
from `line0` to `line2` with no gap and no overlap; with exactly two
lines it reports one student with band `(line0, line1)`; with fewer
than two lines it reports zero students and an empty band list. -/
theorem C3_boundary_interpretation (lines : List ℚ) :
    (∀ h3 : 3 ≤ lines.length,
      interpretBoundaries lines =
        { num_students := 2
          students := [⟨lines[0], lines[1]⟩, ⟨lines[1], lines[2]⟩]
          detected_lines := lines }) ∧
    (∀ h2 : lines.length = 2,
      interpretBoundaries lines =
        { num_students := 1
          students := [⟨lines[0], lines[1]⟩]
          detected_lines := lines }) ∧
    (lines.length < 2 →
      interpretBoundaries lines =
        { num_students := 0, students := [], detected_lines := lines }) := by
  refine ⟨fun h3 => ?_, fun h2 => ?_, fun h1 => ?_⟩
  · rw [interpretBoundaries, dif_pos h3]
  · rw [interpretBoundaries, dif_neg (by omega), dif_pos (by omega)]
  · rw [interpretBoundaries, dif_neg (by omega), dif_neg (by omega)]

/-- Witness for C3 at three concrete line lists. -/
theorem C3_boundary_interpretation_witness :
    interpretBoundaries [(0 : ℚ), 10, 20] =
      { num_students := 2, students := [⟨0, 10⟩, ⟨10, 20⟩],
        detected_lines := [0, 10, 20] } ∧
    interpretBoundaries [(1 : ℚ), 2] =
      { num_students := 1, students := [⟨1, 2⟩], detected_lines := [1, 2] } ∧
    interpretBoundaries [(5 : ℚ)] =
      { num_students := 0, students := [], detected_lines := [5] } := by
  refine ⟨?_, ?_, ?_⟩
  · rw [(C3_boundary_interpretation [0, 10, 20]).1 (by decide)]; decide
  · rw [(C3_boundary_interpretation [1, 2]).2.1 (by decide)]; decide
  · rw [(C3_boundary_interpretation [5]).2.2 (by decide)]

/-! ## C9 -/

/-- C9: with dynamic detection, `crop_single_student` fails (returns
`False`, producing no output file) whenever boundary detection yields
zero bands or the requested student index is not below the number of
detected bands; and any successful crop region comes from the detected
band of the requested index — never from the fixed-coordinate scheme
`STUDENT_BLOCK_COORDS`. -/
theorem C9_crop_no_fallback (detectedLines : List ℚ) (pageWidth : ℚ) (idx : Nat) :
    (((interpretBoundaries detectedLines).num_students = 0 ∨
        (interpretBoundaries detectedLines).students.length ≤ idx) →
      crop_single_student detectedLines pageWidth idx = none) ∧
    ∀ r : CropRegion, crop_single_student detectedLines pageWidth idx = some r →
      ∃ h : idx < (interpretBoundaries detectedLines).students.length,
        r = ⟨0, ((interpretBoundaries detectedLines).students.get ⟨idx, h⟩).y_top,
              pageWidth,
              ((interpretBoundaries detectedLines).students.get ⟨idx, h⟩).y_bottom⟩ := by
  constructor
  · intro h
    rw [crop_single_student]
    rcases h with h | h
    · simp [h]
    · by_cases h0 : (interpretBoundaries detectedLines).num_students = 0
      · simp [h0]
      · simp [h0, if_pos h]
  · intro r hr
    rw [crop_single_student] at hr
    by_cases h0 : (interpretBoundaries detectedLines).num_students = 0
    · rw [if_pos h0] at hr; cases hr
    · rw [if_neg h0] at hr
      by_cases hlen : (interpretBoundaries detectedLines).students.length ≤ idx
      · rw [if_pos hlen] at hr; cases hr
      · rw [if_neg hlen] at hr
        push_neg at hlen
        refine ⟨hlen, ?_⟩
        injection hr with hr
        rw [← hr]
        have hg : (interpretBoundaries detectedLines).students.getD idx ⟨0, 0⟩ =
            (interpretBoundaries detectedLines).students.get ⟨idx, hlen⟩ := by
          rw [List.getD_eq_getElem?_getD, List.getElem?_eq_getElem hlen]
          simp [List.get_eq_getElem]
        rw [hg]

end GradeEX2

namespace GradeEX2

/-- Witness for C9: an empty line list fails, an in-range index on a
two-line page fails when out of range and crops the detected band when
in range. -/
theorem C9_crop_no_fallback_witness :
    crop_single_student ([] : List ℚ) 100 0 = none ∧
    crop_single_student [(0 : ℚ), 10] 100 5 = none ∧
    ∃ h : 0 < (interpretBoundaries [(0 : ℚ), 10]).students.length,
      (⟨0, 0, 100, 10⟩ : CropRegion) =
        ⟨0, ((interpretBoundaries [(0 : ℚ), 10]).students.get ⟨0, h⟩).y_top, 100,
          ((interpretBoundaries [(0 : ℚ), 10]).students.get ⟨0, h⟩).y_bottom⟩ :=
  ⟨(C9_crop_no_fallback [] 100 0).1 (Or.inl (by decide)),
   (C9_crop_no_fallback [(0 : ℚ), 10] 100 5).1 (Or.inr (by decide)),
   (C9_crop_no_fallback [(0 : ℚ), 10] 100 0).2 ⟨0, 0, 100, 10⟩ (by decide)⟩

/-! ## C8 -/

/-- C8 counterexample: a found title line that lacks the
`SUPPLEMENTARY` token is not classified `REGULAR` — when the `REGULAR`
token is also absent the parsed exam type stays `None`, contradicting
the claim that every non-supplementary title line yields `REGULAR`. -/
theorem C8_counterexample :
    isTitleLine c8TitleLine = true ∧
    containsSub "SUPPLEMENTARY" c8TitleLine = false ∧
    parsedExamTypeOfFirstPage [c8TitleLine] = none := by
  decide

/-- C8 (amended): when the first-page title line is found, the exam
kind is `SUPPLEMENTARY` if that literal token appears in the line,
otherwise `REGULAR` if the literal token `REGULAR` appears, and
otherwise the exam type remains unclassified (`None`). -/
theorem C8_exam_type_classification (lines : List String) (line : String)
    (hfind : lines.find? isTitleLine = some line) :
    (containsSub "SUPPLEMENTARY" line = true →
      parsedExamTypeOfFirstPage lines = some "SUPPLEMENTARY") ∧
    (containsSub "SUPPLEMENTARY" line = false → containsSub "REGULAR" line = true →
      parsedExamTypeOfFirstPage lines = some "REGULAR") ∧
    (containsSub "SUPPLEMENTARY" line = false → containsSub "REGULAR" line = false →
      parsedExamTypeOfFirstPage lines = none) := by
  refine ⟨fun hs => ?_, fun hs hr => ?_, fun hs hr => ?_⟩ <;>
    simp only [parsedExamTypeOfFirstPage, hfind]
  · simp [classifyExamType, hs]
  · simp [classifyExamType, hs, hr]
  · simp [classifyExamType, hs, hr]

/-- Witness for C8 at three concrete first pages. -/
theorem C8_exam_type_classification_witness :
    parsedExamTypeOfFirstPage
      ["OFFICE REGISTER FOR THE B.A. SUPPLEMENTARY EXAMINATION"] =
        some "SUPPLEMENTARY" ∧
    parsedExamTypeOfFirstPage
      ["OFFICE REGISTER FOR THE B.A. REGULAR EXAMINATION"] = some "REGULAR" ∧
    parsedExamTypeOfFirstPage [c8TitleLine] = none :=
  ⟨(C8_exam_type_classification ["OFFICE REGISTER FOR THE B.A. SUPPLEMENTARY EXAMINATION"]
      "OFFICE REGISTER FOR THE B.A. SUPPLEMENTARY EXAMINATION" (by decide)).1 (by decide),
   (C8_exam_type_classification ["OFFICE REGISTER FOR THE B.A. REGULAR EXAMINATION"]
      "OFFICE REGISTER FOR THE B.A. REGULAR EXAMINATION" (by decide)).2.1 (by decide) (by decide),
   (C8_exam_type_classification [c8TitleLine] c8TitleLine (by decide)).2.2
     (by decide) (by decide)⟩

/-! ## C5 -/

/-- C5 counterexample: a seat-number line whose status token is
`Repeater` does not receive status `Repeater` — the decoder's closed
keyword set (line 333 of `src/extract_grades.py`) omits `Repeater`, so
the status stays `None`. -/
theorem C5_repeater_counterexample :
    "Repeater" ∈ pySplit c5SeatLine ∧
    (decodeSeatLine c5SeatLine {}).status = none ∧
    (decodeSeatLine c5SeatLine {}).name = none ∧
    (decodeSeatLine c5SeatLine {}).gender = none := by
  decide

end GradeEX2

namespace GradeEX2

/-- C5 (amended): for every seat-number line whose first token is nine
digits and whose tokens contain a keyword from the closed set
`{Regular, ATKT, Ex-Student}` — the decoder's set omits `Repeater` —
the seat-line decoder sets the status to the first such keyword, sets
the name to the tokens strictly between the seat number and that
keyword when at least one such token exists, and sets the gender when
the token immediately after the status keyword is one of
`{MALE, FEMALE, OTHER}`; a line whose only status-like token is
`Repeater` leaves the status unset. -/
theorem C5_seat_line_decoding (seat_line : String) (t0 : String) (ts : List String)
    (i : Nat) (st : Student)
    (htok : pySplit seat_line = t0 :: ts)
    (h9 : isNineDigits t0 = true)
    (hidx : (t0 :: ts).findIdx? (fun t => t ∈ status_keywords) = some i) :
    (decodeSeatLine seat_line st).seat_no = some t0 ∧
    (decodeSeatLine seat_line st).status = some ((t0 :: ts).getD i "") ∧
    ((decodeSeatLine seat_line st).name =
      if 1 < i then some (" ".intercalate (((t0 :: ts).take i).drop 1)) else st.name) ∧
    ((decodeSeatLine seat_line st).gender =
      if i + 1 < (t0 :: ts).length ∧ (t0 :: ts).getD (i + 1) "" ∈ gender_keywords
      then some ((t0 :: ts).getD (i + 1) "") else st.gender) := by
  have hne : i ≠ 0 := by
    rintro rfl
    obtain ⟨hlt, hp, -⟩ := List.findIdx?_eq_some_iff_getElem.mp hidx
    simp only [List.getElem_cons_zero, decide_eq_true_eq, status_keywords,
      List.mem_cons, List.not_mem_nil, or_false] at hp
    rcases hp with h | h | h <;> rw [h] at h9 <;> exact absurd h9 (by decide)
  rw [decodeSeatLine, htok]
  simp only [h9, if_true, hidx, List.getD_eq_getElem?_getD, List.length_cons,
    List.getElem?_cons_succ, Nat.add_lt_add_iff_right, List.drop_one, hne, ne_eq,
    not_false_iff, true_and]
  by_cases h1 : i < ts.length
  · have hget : ts[i]? = some (ts[i]) := List.getElem?_eq_getElem h1
    by_cases h2 : ts[i] ∈ gender_keywords
    · by_cases hn : 1 < i <;> simp [h1, h2, hn, hget]
    · by_cases hn : 1 < i <;> simp [h1, h2, hn, hget]
  · by_cases hn : 1 < i <;> simp [h1, hn]

/-- Witness for C5 at specification example 5's seat line. -/
theorem C5_seat_line_decoding_witness :
    (decodeSeatLine "123456789 RAHUL SHARMA Regular MALE" {}).seat_no = some "123456789" ∧
    (decodeSeatLine "123456789 RAHUL SHARMA Regular MALE" {}).status = some "Regular" ∧
    (decodeSeatLine "123456789 RAHUL SHARMA Regular MALE" {}).name = some "RAHUL SHARMA" ∧
    (decodeSeatLine "123456789 RAHUL SHARMA Regular MALE" {}).gender = some "MALE" := by
  have h := C5_seat_line_decoding "123456789 RAHUL SHARMA Regular MALE" "123456789"
    ["RAHUL", "SHARMA", "Regular", "MALE"] 3 {} (by decide) (by decide) (by decide)
  exact ⟨h.1, h.2.1.trans (by decide), h.2.2.1.trans (by decide), h.2.2.2.trans (by decide)⟩

end GradeEX2

namespace GradeEX2

/-- Folding "append when the mapped element passes the test" equals
mapping then filtering. -/
theorem foldl_append_filter {α β : Type} (f : β → α) (p : α → Bool) (l : List β)
    (init : List α) :
    l.foldl (fun acc x => if p (f x) then acc ++ [f x] else acc) init =
      init ++ (l.map f).filter p := by
  induction l generalizing init with
  | nil => simp
  | cons x xs ih =>
    simp only [List.foldl_cons, List.map_cons, List.filter_cons]
    by_cases h : p (f x) <;> simp [h, ih]

/-- The anchored candidate blocks of
`MumbaiUniversityGradeExtractor.find_student_blocks` before the
completeness gate of line 239 is applied. -/
def candidate_blocks (page_text : String) : List String :=
  let lines := splitLines page_text
  (blockRanges (studentStartIndices lines) lines.length).map (blockSlice lines)

/-- The anchored candidate blocks of
`SimpleStudentExtractor.find_student_blocks` before the completeness
gate of `src/extract_simple.py` line 112 is applied. -/
def simple_candidate_blocks (page_text : String) : List String :=
  let lines := splitLines page_text
  (blockRanges (simpleStudentStartIndices lines) lines.length).map (blockSlice lines)

/-! ## C4 -/

/-- C4 counterexample: the simplified segmenter
(`src/extract_simple.py`, one of the claim's two cited symbols) retains
an anchored candidate block that contains `I1` and `TOT` but no `E1`
marker, so containment of all three row markers is not the retention
condition there. -/
theorem C4_counterexample :
    simple_find_student_blocks c4Page = [c4Page] ∧
    containsSub "E1" c4Page = false := by
  decide

/-- C4 (amended): an anchored candidate block is retained by the main
segmenter (`src/extract_grades.py`) iff its concatenated text contains
all three row markers `E1`, `I1` and `TOT`, and by the simplified
segmenter (`src/extract_simple.py`) iff it contains the two markers
`I1` and `TOT` (no `E1` requirement); in both cases marker containment
is the sole completeness condition at segmentation time. -/
theorem C4_completeness_gates (page_text b : String) :
    (b ∈ find_student_blocks page_text ↔
      b ∈ candidate_blocks page_text ∧
      (containsSub "E1" b = true ∧ containsSub "I1" b = true ∧ containsSub "TOT" b = true)) ∧
    (b ∈ simple_find_student_blocks page_text ↔
      b ∈ simple_candidate_blocks page_text ∧
      (containsSub "I1" b = true ∧ containsSub "TOT" b = true)) := by
  constructor
  · rw [find_student_blocks,
      foldl_append_filter (blockSlice (splitLines page_text))
        (fun t => containsSub "E1" t && containsSub "I1" t && containsSub "TOT" t)]
    simp [candidate_blocks, List.mem_filter, and_assoc]
  · rw [simple_find_student_blocks,
      foldl_append_filter (blockSlice (splitLines page_text))
        (fun t => containsSub "I1" t && containsSub "TOT" t)]
    simp [simple_candidate_blocks, List.mem_filter, and_assoc]

end GradeEX2

namespace GradeEX2

/-- A non-empty group whose members are all at most `b` has average at
most `b`. -/
theorem groupAvg_le {g : List ℚ} {b : ℚ} (hne : g ≠ []) (h : ∀ x ∈ g, x ≤ b) :
    groupAvg g ≤ b := by
  have hlen : 0 < (g.length : ℚ) := by
    have := List.length_pos.mpr hne
    exact_mod_cast this
  rw [groupAvg, div_le_iff₀ hlen]
  calc g.sum ≤ g.length • b := List.sum_le_card_nsmul g b h
    _ = b * g.length := by rw [nsmul_eq_mul]; ring

/-- A non-empty group whose members are all at least `a` has average at
least `a`. -/
theorem le_groupAvg {g : List ℚ} {a : ℚ} (hne : g ≠ []) (h : ∀ x ∈ g, a ≤ x) :
    a ≤ groupAvg g := by
  have hlen : 0 < (g.length : ℚ) := by
    have := List.length_pos.mpr hne
    exact_mod_cast this
  rw [groupAvg, le_div_iff₀ hlen]
  calc a * g.length = g.length • a := by rw [nsmul_eq_mul]; ring
    _ ≤ g.sum := List.card_nsmul_le_sum g a h

/-- The average of a one-element group is its element. -/
theorem groupAvg_singleton (x : ℚ) : groupAvg [x] = x := by
  simp [groupAvg]

/-- Invariant of the clustering loop on ascending input: the output is
non-empty, its head is at least the lower bound of the open group, and
consecutive output values are more than `t` apart. -/
theorem dedupAux_chain (t : ℚ) :
    ∀ (rest : List ℚ) (prev : ℚ) (group : List ℚ) (lo : ℚ),
      group ≠ [] → (∀ x ∈ group, lo ≤ x ∧ x ≤ prev) →
      List.Chain' (· ≤ ·) (prev :: rest) →
      (dedupAux t prev group rest ≠ [] ∧
       (∀ y ∈ (dedupAux t prev group rest).head?, lo ≤ y) ∧
       List.Chain' (fun a b => t < b - a) (dedupAux t prev group rest)) := by
  intro rest
  induction rest with
  | nil =>
    intro prev group lo hne hbd _
    refine ⟨by simp [dedupAux], ?_, by simp [dedupAux]⟩
    simp only [dedupAux, List.head?_cons, Option.mem_some_iff]
    rintro y rfl
    exact le_groupAvg hne (fun x hx => (hbd x hx).1)
  | cons x rest' ih =>
    intro prev group lo hne hbd hchain
    have hpx : prev ≤ x := (List.chain'_cons.mp hchain).1
    have hchain' : List.Chain' (· ≤ ·) (x :: rest') := (List.chain'_cons.mp hchain).2
    rw [dedupAux]
    by_cases hle : x - prev ≤ t
    · rw [if_pos hle]
      refine ih x (group ++ [x]) lo (by simp) ?_ hchain'
      intro y hy
      rcases List.mem_append.mp hy with hy | hy
      · exact ⟨(hbd y hy).1, le_trans (hbd y hy).2 hpx⟩
      · simp only [List.mem_singleton] at hy
        subst hy
        obtain ⟨z, hz⟩ := List.exists_mem_of_ne_nil group hne
        exact ⟨le_trans (hbd z hz).1 (le_trans (hbd z hz).2 hpx), le_refl _⟩
    · rw [if_neg hle]
      obtain ⟨hne', hhead', hchain''⟩ :=
        ih x [x] x (by simp) (by simp) hchain'
      have havg_le : groupAvg group ≤ prev := groupAvg_le hne (fun z hz => (hbd z hz).2)
      have havg_ge : lo ≤ groupAvg group := le_groupAvg hne (fun z hz => (hbd z hz).1)
      refine ⟨by simp, ?_, ?_⟩
      · simp only [List.head?_cons, Option.mem_some_iff]
        rintro y rfl
        exact havg_ge
      · rw [List.chain'_cons']
        refine ⟨?_, hchain''⟩
        intro y hy
        have hxy : x ≤ y := hhead' y hy
        have : t < x - prev := lt_of_not_le hle
        linarith

/-- A list whose consecutive values are more than `t` apart is a fixed
point of the clustering loop: every group stays a singleton and an
average of a singleton is the element itself. -/
theorem dedupAux_fixpoint (t : ℚ) :
    ∀ (rest : List ℚ) (x : ℚ),
      List.Chain' (fun a b => t < b - a) (x :: rest) →
      dedupAux t x [x] rest = x :: rest := by
  intro rest
  induction rest with
  | nil => intro x _; simp [dedupAux, groupAvg_singleton]
  | cons y rest' ih =>
    intro x hchain
    have hxy : t < y - x := (List.chain'_cons.mp hchain).1
    rw [dedupAux, if_neg (by linarith), groupAvg_singleton,
      ih y (List.chain'_cons.mp hchain).2]

/-! ## C7 -/

/-- C7: line clustering is idempotent — on an ascending-sorted
y-coordinate list, re-running `_deduplicate_lines` with the same
threshold on its own output returns that output unchanged. -/
theorem C7_dedup_idempotent (xs : List ℚ) (t : ℚ)
    (hs : List.Chain' (· ≤ ·) xs) :
    deduplicate_lines (deduplicate_lines xs t) t = deduplicate_lines xs t := by
  cases xs with
  | nil => rfl
  | cons x rest =>
    obtain ⟨hne, hhead, hchain⟩ :=
      dedupAux_chain t rest x [x] x (by simp) (by simp) hs
    rw [deduplicate_lines]
    cases hout : dedupAux t x [x] rest with
    | nil => exact absurd hout hne
    | cons y ys =>
      rw [hout] at hchain
      rw [deduplicate_lines, dedupAux_fixpoint t ys y hchain]

/-- Witness for C7: `[0, 3, 10]` with threshold `5` clusters to
`[3/2, 10]`, and re-clustering leaves that unchanged. -/
theorem C7_dedup_idempotent_witness :
    deduplicate_lines (deduplicate_lines [(0 : ℚ), 3, 10] 5) 5 =
      deduplicate_lines [(0 : ℚ), 3, 10] 5 ∧
    deduplicate_lines [(0 : ℚ), 3, 10] 5 = [Rat.divInt 3 2, 10] :=
  ⟨C7_dedup_idempotent [(0 : ℚ), 3, 10] 5 (by norm_num [List.chain'_cons]),
   by with_unfolding_all decide⟩

end GradeEX2

namespace GradeEX2

/-- A seat-anchor line (which starts with a digit after stripping)
cannot also be an enrollment-reference continuation line (which starts
with an opening parenthesis). -/
theorem isSeatAnchor_not_ernCont {s : String} (h : isSeatAnchor s = true) :
    isErnContinuation s = false := by
  rw [isErnContinuation]
  rw [isSeatAnchor] at h
  cases hcs : stripChars s.data with
  | nil => rw [hcs] at h
  | cons c cs =>
    rw [hcs] at h
    simp only [List.take_succ_cons, List.all_cons, List.length_cons,
      Bool.and_eq_true, decide_eq_true_eq] at h
    have hc : isDigitChar c = true := h.1.2.1
    split
    · rename_i d rest heq
      have hc' : c = '(' := ((List.cons.injEq _ _ _ _).mp heq).1
      rw [hc'] at hc
      exact absurd hc (by decide)
    · rfl

/-- The detected start indices are strictly increasing: an anchor at
`i` contributes `i` or `i - 1`, and the back-shift by one line can
never collide with the previous anchor because an anchor line is never
an enrollment continuation line. -/
theorem studentStartIndices_sorted (lines : List String) :
    List.Pairwise (· < ·) (studentStartIndices lines) := by
  rw [studentStartIndices, List.pairwise_filterMap]
  refine (List.pairwise_lt_range lines.length).imp ?_
  intro i j hij a ha b hb
  rw [Option.mem_def] at ha hb
  split_ifs at ha with hai hci
  · injection ha with ha
    obtain ⟨hi0, -⟩ := hci
    split_ifs at hb with haj hcj
    · injection hb with hb; omega
    · injection hb with hb; omega
  · injection ha with ha
    split_ifs at hb with haj hcj
    · injection hb with hb
      rcases Nat.lt_or_ge i (j - 1) with hc | hc
      · omega
      · obtain ⟨hj0, hcj2⟩ := hcj
        have hji : j - 1 = i := by omega
        rw [hji, isSeatAnchor_not_ernCont hai] at hcj2
        exact absurd hcj2 (by simp)
    · injection hb with hb; omega

/-- Every detected start index is a valid line index. -/
theorem studentStartIndices_lt (lines : List String) :
    ∀ s ∈ studentStartIndices lines, s < lines.length := by
  intro s hs
  rw [studentStartIndices, List.mem_filterMap] at hs
  obtain ⟨i, hi, hfi⟩ := hs
  rw [List.mem_range] at hi
  split_ifs at hfi with h1 h2
  · injection hfi with hfi; omega
  · injection hfi with hfi; omega

/-- For strictly increasing start indices bounded by the line count,
the block ranges are non-empty intervals, ordered by start index, whose
interiors do not overlap (each block ends no later than any later block
starts). -/
theorem blockRanges_spec (n : Nat) :
    ∀ (starts : List Nat), List.Pairwise (· < ·) starts → (∀ s ∈ starts, s < n) →
      List.Pairwise (fun p q : Nat × Nat => p.1 < q.1 ∧ p.2 ≤ q.1)
        (blockRanges starts n) ∧
      ∀ p ∈ blockRanges starts n, p.1 < p.2 ∧ p.2 ≤ n := by
  intro starts
  induction starts with
  | nil => intro _ _; exact ⟨List.Pairwise.nil, by simp [blockRanges]⟩
  | cons s rest ih =>
    intro hsort hlt
    cases rest with
    | nil =>
      refine ⟨List.pairwise_singleton _ _, ?_⟩
      intro p hp
      simp only [blockRanges, List.drop_succ_cons, List.drop_nil, List.nil_append,
        List.zip_cons_cons, List.zip_nil_right, List.mem_singleton] at hp
      subst hp
      exact ⟨hlt s (by simp), le_refl n⟩
    | cons s' rest' =>
      have hrec : blockRanges (s :: s' :: rest') n =
          (s, s') :: blockRanges (s' :: rest') n := rfl
      have hsort' : List.Pairwise (· < ·) (s' :: rest') :=
        (List.pairwise_cons.mp hsort).2
      have hslt : ∀ x ∈ s' :: rest', s < x := (List.pairwise_cons.mp hsort).1
      obtain ⟨ihp, ihm⟩ := ih hsort' (fun x hx => hlt x (List.mem_cons_of_mem s hx))
      rw [hrec]
      constructor
      · rw [List.pairwise_cons]
        refine ⟨?_, ihp⟩
        intro q hq
        have hq1 : q.1 ∈ s' :: rest' := (List.of_mem_zip hq).1
        refine ⟨hslt q.1 hq1, ?_⟩
        rcases List.mem_cons.mp hq1 with h | h
        · omega
        · have := (List.pairwise_cons.mp hsort').1 q.1 h
          omega
      · intro p hp
        rcases List.mem_cons.mp hp with h | h
        · subst h
          exact ⟨hslt s' (by simp), le_of_lt (hlt s' (by simp))⟩
        · exact ihm p h

/-- C6: the blocks returned by the segmenter are pairwise
non-overlapping line ranges ordered by first line index ascending, and
each block is a contiguous, unmodified slice of the input lines —
including when a block start is moved back one line to capture a
preceding enrollment-reference continuation line. -/
theorem C6_blocks_are_ordered_slices (page_text : String) :
    ∃ ranges : List (Nat × Nat),
      List.Pairwise (fun p q : Nat × Nat => p.1 < q.1 ∧ p.2 ≤ q.1) ranges ∧
      (∀ p ∈ ranges, p.1 < p.2 ∧ p.2 ≤ (splitLines page_text).length) ∧
      find_student_blocks page_text =
        ranges.map (fun p =>
          "\n".intercalate (((splitLines page_text).drop p.1).take (p.2 - p.1))) := by
  refine ⟨(blockRanges (studentStartIndices (splitLines page_text))
      (splitLines page_text).length).filter
      ((fun b => containsSub "E1" b && containsSub "I1" b && containsSub "TOT" b) ∘
        blockSlice (splitLines page_text)), ?_, ?_, ?_⟩
  · exact ((blockRanges_spec _ _ (studentStartIndices_sorted _)
      (studentStartIndices_lt _)).1).sublist (List.filter_sublist _)
  · intro p hp
    exact (blockRanges_spec _ _ (studentStartIndices_sorted _)
      (studentStartIndices_lt _)).2 p (List.mem_of_mem_filter hp)
  · rw [find_student_blocks,
      foldl_append_filter (blockSlice (splitLines page_text))
        (fun t => containsSub "E1" t && containsSub "I1" t && containsSub "TOT" t),
      List.nil_append, List.filter_map]
    rfl

end GradeEX2

namespace GradeEX2

/-- The quintuple loop never grows the totals list beyond the
subject-code count: it only appends while strictly below it. -/
theorem totLoopFuel_totals_le (parts : List String) (numCodes : Nat) :
    ∀ (fuel i : Nat) (st : TotLists),
      st.total_marks_list.length ≤ numCodes →
      (totLoopFuel parts numCodes fuel i st).total_marks_list.length ≤ numCodes := by
  intro fuel
  induction fuel with
  | zero => intro i st h; exact h
  | succ fuel ih =>
    intro i st h
    rw [totLoopFuel]
    dsimp only
    split_ifs with h1 h2 h3 h4
    · refine ih (i + 5) _ ?_
      simp only [List.length_append, List.length_singleton]
      omega
    · exact ih (i + 1) st h
    · exact ih (i + 1) st h
    · exact ih (i + 1) st h
    · exact h

/-- `totLoopFuel_totals_le` at the fuel used by `totLoop`. -/
theorem totLoop_totals_le (parts : List String) (numCodes i : Nat) (st : TotLists)
    (h : st.total_marks_list.length ≤ numCodes) :
    (totLoop parts numCodes i st).total_marks_list.length ≤ numCodes :=
  totLoopFuel_totals_le parts numCodes (parts.length + 1) i st h

/-- Stripping the SGPA touches neither the totals list nor the
subject codes. -/
theorem stripSgpa_fields (st : Student) (cs : List Char) :
    (stripSgpa st cs).1.total_marks_list = st.total_marks_list ∧
    (stripSgpa st cs).1.subject_codes = st.subject_codes := by
  rw [stripSgpa]
  rcases stripTrailingDecimal cs with _ | ⟨v, r⟩ <;> exact ⟨rfl, rfl⟩

/-- Stripping the total credits touches neither the totals list nor
the subject codes. -/
theorem stripTotalCredits_fields (st : Student) (cs : List Char) :
    (stripTotalCredits st cs).1.total_marks_list = st.total_marks_list ∧
    (stripTotalCredits st cs).1.subject_codes = st.subject_codes := by
  rw [stripTotalCredits]
  rcases stripTrailingInt cs with _ | ⟨v, r⟩ <;> exact ⟨rfl, rfl⟩

/-- One marks-row step keeps the totals list within the subject-code
count and never changes the subject codes. -/
theorem marksRowStep_invariant (numCodes : Nat) (st : Student) (line : String)
    (h : st.total_marks_list.length ≤ numCodes) :
    (marksRowStep numCodes st line).total_marks_list.length ≤ numCodes ∧
    (marksRowStep numCodes st line).subject_codes = st.subject_codes := by
  rw [marksRowStep]
  by_cases h1 : pyStartsWith line "E1" = true
  · rw [if_pos h1]
    exact ⟨h, rfl⟩
  rw [if_neg h1]
  by_cases h2 : pyStartsWith line "I1" = true
  · rw [if_pos h2]
    constructor
    · dsimp only
      cases hf : findParenTotal line.data <;> dsimp only <;>
        split_ifs <;> exact h
    · dsimp only
      cases hf : findParenTotal line.data <;> dsimp only <;>
        split_ifs <;> rfl
  rw [if_neg h2]
  by_cases h3 : pyStartsWith line "TOT" = true
  · rw [if_pos h3]
    dsimp only
    obtain ⟨hA, hB⟩ := stripSgpa_fields st line.data
    obtain ⟨hC, hD⟩ :=
      stripTotalCredits_fields (stripSgpa st line.data).1
        (stripIntermediateSum (stripSgpa st line.data).2)
    constructor
    · refine totLoop_totals_le _ _ _ _ ?_
      show (stripTotalCredits _ _).1.total_marks_list.length ≤ numCodes
      rw [hC, hA]
      exact h
    · show (stripTotalCredits _ _).1.subject_codes = st.subject_codes
      rw [hD, hB]
  · rw [if_neg h3]
    exact ⟨h, rfl⟩

/-- The whole marks-row pass keeps the totals list within the
subject-code count and never changes the subject codes. -/
theorem foldl_marksRow_invariant (numCodes : Nat) :
    ∀ (lines : List String) (st : Student),
      st.total_marks_list.length ≤ numCodes →
      ((lines.foldl (marksRowStep numCodes) st).total_marks_list.length ≤ numCodes ∧
       (lines.foldl (marksRowStep numCodes) st).subject_codes = st.subject_codes) := by
  intro lines
  induction lines with
  | nil => intro st h; exact ⟨h, rfl⟩
  | cons l ls ih =>
    intro st h
    rw [List.foldl_cons]
    obtain ⟨h1, h2⟩ := marksRowStep_invariant numCodes st l h
    obtain ⟨h3, h4⟩ := ih (marksRowStep numCodes st l) h1
    exact ⟨h3, h4.trans h2⟩

/-- Seat-line decoding touches neither the totals list nor the
subject codes. -/
theorem decodeSeatLine_fields (l : String) (st : Student) :
    (decodeSeatLine l st).total_marks_list = st.total_marks_list ∧
    (decodeSeatLine l st).subject_codes = st.subject_codes := by
  rw [decodeSeatLine]
  dsimp only
  repeat' split
  all_goals exact ⟨rfl, rfl⟩

/-- The marks-row pass started from a record with an empty totals
list and `numCodes` subject codes ends with at most as many totals as
subject codes. -/
theorem parse_init_bound (numCodes : Nat) (lines : List String) (st : Student)
    (htot : st.total_marks_list = []) (hsc : st.subject_codes.length = numCodes) :
    (lines.foldl (marksRowStep numCodes) st).total_marks_list.length ≤
      (lines.foldl (marksRowStep numCodes) st).subject_codes.length := by
  obtain ⟨h1, h2⟩ := foldl_marksRow_invariant numCodes lines st (by simp [htot])
  rw [h2, hsc]
  exact h1

/-- Every parsed record has at most as many decoded aggregate-row
totals as subject codes. -/
theorem parse_totals_le_codes (block_text : String) (page : Nat)
    (codes : List String) :
    (parse_student_record block_text page codes).total_marks_list.length ≤
      (parse_student_record block_text page codes).subject_codes.length := by
  rw [parse_student_record]
  repeat' split
  all_goals
    exact parse_init_bound _ _ _
      (by simp [(decodeSeatLine_fields _ _).1]) (by simp [(decodeSeatLine_fields _ _).2])

/-- C10: every student record accepted by the validator has a
non-empty subject-code list, and each of the four per-subject arrays
(external, internal, totals, grades) has length at least 1 and at most
the number of subject codes. -/
theorem C10_accepted_array_bounds (block_text : String) (page : Nat)
    (codes : List String)
    (hacc : validate_student_record (parse_student_record block_text page codes) = true) :
    1 ≤ (parse_student_record block_text page codes).subject_codes.length ∧
    (1 ≤ (parse_student_record block_text page codes).external_marks.length ∧
      (parse_student_record block_text page codes).external_marks.length ≤
        (parse_student_record block_text page codes).subject_codes.length) ∧
    (1 ≤ (parse_student_record block_text page codes).internal_marks.length ∧
      (parse_student_record block_text page codes).internal_marks.length ≤
        (parse_student_record block_text page codes).subject_codes.length) ∧
    (1 ≤ (parse_student_record block_text page codes).total_marks_list.length ∧
      (parse_student_record block_text page codes).total_marks_list.length ≤
        (parse_student_record block_text page codes).subject_codes.length) ∧
    (1 ≤ (parse_student_record block_text page codes).grades.length ∧
      (parse_student_record block_text page codes).grades.length ≤
        (parse_student_record block_text page codes).subject_codes.length) := by
  have hle := parse_totals_le_codes block_text page codes
  simp only [validate_student_record, Bool.and_eq_true, Bool.not_eq_true',
    decide_eq_false_iff_not, decide_eq_true_eq, and_assoc] at hacc
  obtain ⟨-, -, -, -, hnum, hint, htot, hgr⟩ := hacc
  omega

/-- C1 (amended): for every record accepted by the validator the
external, internal, totals and grades arrays have equal positive
length, and that length is at most — but need not equal — the length of
the record's subject-code list. -/
theorem C1_accepted_equal_lengths (block_text : String) (page : Nat)
    (codes : List String)
    (hacc : validate_student_record (parse_student_record block_text page codes) = true) :
    ((parse_student_record block_text page codes).external_marks.length =
        (parse_student_record block_text page codes).internal_marks.length ∧
      (parse_student_record block_text page codes).external_marks.length =
        (parse_student_record block_text page codes).total_marks_list.length ∧
      (parse_student_record block_text page codes).external_marks.length =
        (parse_student_record block_text page codes).grades.length) ∧
    0 < (parse_student_record block_text page codes).external_marks.length ∧
    (parse_student_record block_text page codes).external_marks.length ≤
      (parse_student_record block_text page codes).subject_codes.length := by
  have hle := parse_totals_le_codes block_text page codes
  simp only [validate_student_record, Bool.and_eq_true, Bool.not_eq_true',
    decide_eq_false_iff_not, decide_eq_true_eq, and_assoc] at hacc
  obtain ⟨-, -, -, -, hnum, hint, htot, hgr⟩ := hacc
  omega

/-- C1 counterexample: a block whose header announces three subject
codes while every marks row decodes two values is accepted by the
validator with array length 2 ≠ 3 subject codes, refuting the claimed
equality. -/
theorem C1_counterexample :
    validate_student_record (parse_student_record c1Block 3 []) = true ∧
    (parse_student_record c1Block 3 []).external_marks.length = 2 ∧
    (parse_student_record c1Block 3 []).subject_codes.length = 3 := by
  with_unfolding_all decide

/-- Witness for C1 at a concrete accepted block. -/
theorem C1_accepted_equal_lengths_witness :
    validate_student_record (parse_student_record c2Block 3 []) = true ∧
    (((parse_student_record c2Block 3 []).external_marks.length =
        (parse_student_record c2Block 3 []).internal_marks.length ∧
      (parse_student_record c2Block 3 []).external_marks.length =
        (parse_student_record c2Block 3 []).total_marks_list.length ∧
      (parse_student_record c2Block 3 []).external_marks.length =
        (parse_student_record c2Block 3 []).grades.length) ∧
    0 < (parse_student_record c2Block 3 []).external_marks.length ∧
    (parse_student_record c2Block 3 []).external_marks.length ≤
      (parse_student_record c2Block 3 []).subject_codes.length) :=
  ⟨by with_unfolding_all decide,
   C1_accepted_equal_lengths c2Block 3 [] (by with_unfolding_all decide)⟩

/-- Witness for C10 at a concrete accepted block. -/
theorem C10_accepted_array_bounds_witness :
    validate_student_record (parse_student_record c1Block 3 []) = true ∧
    (1 ≤ (parse_student_record c1Block 3 []).subject_codes.length ∧
    (1 ≤ (parse_student_record c1Block 3 []).external_marks.length ∧
      (parse_student_record c1Block 3 []).external_marks.length ≤
        (parse_student_record c1Block 3 []).subject_codes.length) ∧
    (1 ≤ (parse_student_record c1Block 3 []).internal_marks.length ∧
      (parse_student_record c1Block 3 []).internal_marks.length ≤
        (parse_student_record c1Block 3 []).subject_codes.length) ∧
    (1 ≤ (parse_student_record c1Block 3 []).total_marks_list.length ∧
      (parse_student_record c1Block 3 []).total_marks_list.length ≤
        (parse_student_record c1Block 3 []).subject_codes.length) ∧
    (1 ≤ (parse_student_record c1Block 3 []).grades.length ∧
      (parse_student_record c1Block 3 []).grades.length ≤
        (parse_student_record c1Block 3 []).subject_codes.length)) :=
  ⟨by with_unfolding_all decide,
   C10_accepted_array_bounds c1Block 3 [] (by with_unfolding_all decide)⟩

end GradeEX2
